import Mathlib

/-!
Verification of the calendar heatmap layout logic of `src/calendar/js/index.js`.

The embedding models:
* the proleptic Gregorian calendar used by JavaScript `Date` (day-of-week via a
  linear day count, `getDay` with 0 = Sunday),
* the d3 time helpers the code calls (`d3.timeWeek.count`, `d3.timeYear`,
  `d3.timeDays`, `d3.range`),
* the grid-coordinate functions (`getWeekNumber`, `getDayNumber`, `getX`, `getY`),
* the month outline path builder (`getPathDescriptionForMonth`), as its list of
  eight vertices (the SVG string `M x0,y0 H x1 V y2 H x3 V y4 H x5 V y6 H x7 Z`
  is determined by those vertices),
* the data-driven restyling pass (`updateClassAndTitleForDayRects`), the CSV
  transform (`transformCsvData`) and the load callback, and the year range of
  `generateYearGroups`.
-/

namespace Calendar

/-- Gregorian leap-year rule (as used by JavaScript `Date`). -/
def isLeap (y : Nat) : Bool :=
  (y % 4 == 0 && y % 100 != 0) || y % 400 == 0

/-- Number of days of month `m` (1 = January .. 12 = December) of year `y`;
`0` for out-of-range month numbers. -/
def daysInMonth (y m : Nat) : Nat :=
  match m with
  | 1 => 31
  | 2 => if isLeap y then 29 else 28
  | 3 => 31
  | 4 => 30
  | 5 => 31
  | 6 => 30
  | 7 => 31
  | 8 => 31
  | 9 => 30
  | 10 => 31
  | 11 => 30
  | 12 => 31
  | _ => 0

/-- Number of days of year `y`. -/
def daysInYear (y : Nat) : Nat := if isLeap y then 366 else 365

/-- Days of year `y` that lie before month `m` (so `daysBeforeMonth y 1 = 0`). -/
def daysBeforeMonth (y : Nat) : Nat → Nat
  | 0 => 0
  | m + 1 => daysBeforeMonth y m + daysInMonth y m

/-- Days lying before January 1 of year `y` (counting from January 1 of year 1,
proleptic Gregorian): `365` per year plus one per leap year among `1..y-1`. -/
def daysBeforeYear (y : Nat) : Nat :=
  (y - 1) * 365 + (y - 1) / 4 - (y - 1) / 100 + (y - 1) / 400

/-- A calendar date, as the triple a JavaScript `Date` denotes (month 1-based). -/
structure Date where
  year : Nat
  month : Nat
  day : Nat
deriving DecidableEq, Repr

/-- Valid calendar dates: year at least 1, month `1..12`, day within the month. -/
def Date.Valid (d : Date) : Prop :=
  1 ≤ d.year ∧ 1 ≤ d.month ∧ d.month ≤ 12 ∧ 1 ≤ d.day ∧ d.day ≤ daysInMonth d.year d.month

instance (d : Date) : Decidable d.Valid := by
  unfold Date.Valid; infer_instance

/-- 0-based day-of-year offset of a date (0 for January 1). -/
def dayOfYear0 (d : Date) : Nat := daysBeforeMonth d.year d.month + (d.day - 1)

/-- Linear day number of a date (January 1 of year 1 ↦ 0); this is the day part
of the JavaScript `Date` time value, shifted to a non-negative epoch. -/
def rata (d : Date) : Nat := daysBeforeYear d.year + dayOfYear0 d

/-- Day of week of linear day `n`: 0 = Sunday .. 6 = Saturday.
January 1 of year 1 (day 0) is a Monday in the proleptic Gregorian calendar. -/
def dow (n : Nat) : Nat := (n + 1) % 7

/-- JavaScript `date.getDay()`: 0 = Sunday .. 6 = Saturday. -/
def getDayNumber (d : Date) : Nat := dow (rata d)

/-- `d3.timeWeek.floor` on a (possibly negative) linear day number: the latest
Sunday at or before it. -/
def sundayFloor (n : ℤ) : ℤ := n - (n + 1) % 7

/-- `d3.timeWeek.count start stop`: the number of week boundaries (Sundays)
after `start` (exclusive) and at or before `stop` (inclusive); d3 computes it
as the (exact) difference of the Sunday floors divided by the week length. -/
def timeWeekCount (start stop : ℤ) : ℤ := (sundayFloor stop - sundayFloor start) / 7

/-- `getWeekNumber(date)` from the source:
`d3.timeWeek.count(d3.timeYear(date), date)`, where `d3.timeYear date` is
January 1 of the date's year. -/
def getWeekNumber (d : Date) : ℤ :=
  timeWeekCount (rata ⟨d.year, 1, 1⟩) (rata d)

/-- `getX(date) = getWeekNumber(date) * cellSize`. -/
def getX (cellSize : Nat) (d : Date) : ℤ := getWeekNumber d * cellSize

/-- `getY(date) = getDayNumber(date) * cellSize`. -/
def getY (cellSize : Nat) (d : Date) : ℤ := (getDayNumber d : ℤ) * cellSize

/-- Modelled from the spec: "count of Sunday-to-Saturday week boundaries crossed
since January 1 of that date's year" — the number of Sundays after January 1
(exclusive) up to the date (inclusive), so the week containing January 1 is
week 0 whatever its weekday. -/
def specWeekIndex (d : Date) : Nat :=
  (List.range (dayOfYear0 d)).countP (fun i => dow (rata ⟨d.year, 1, 1⟩ + i + 1) == 0)

/-- The calendar day after `d` (what adding one day to a JavaScript `Date` does,
for a valid `d`). -/
def nextDay (d : Date) : Date :=
  if d.day < daysInMonth d.year d.month then ⟨d.year, d.month, d.day + 1⟩
  else if d.month < 12 then ⟨d.year, d.month + 1, 1⟩
  else ⟨d.year + 1, 1, 1⟩

/-- `n` consecutive days starting at `d`: the step-by-one-day enumeration of
`d3.timeDays`, with the day count made explicit. -/
def timeDaysGo : Nat → Date → List Date
  | 0, _ => []
  | n + 1, d => d :: timeDaysGo n (nextDay d)

/-- `getAllDaysInYear(year) = d3.timeDays(new Date(year,0,1), new Date(year+1,0,1))`:
every day from January 1 of `year` (inclusive) to January 1 of `year + 1`
(exclusive), in ascending order. -/
def getAllDaysInYear (y : Nat) : List Date :=
  timeDaysGo (rata ⟨y + 1, 1, 1⟩ - rata ⟨y, 1, 1⟩) ⟨y, 1, 1⟩

/-- The vertex sequence of the SVG path built in `getPathDescriptionForMonth`
from the computed quantities `thisMonthWeekOfYear` (`tw`), `thisMonthDayOfWeek`
(`td`), `nextMonthWeekOfYear` (`nw`), `nextMonthDayOfWeek` (`nd`):
`M ((tw+1)·cs, td·cs) H tw·cs V 7·cs H nw·cs V (nd+1)·cs H (nw+1)·cs V 0
H (tw+1)·cs Z`. -/
def monthOutlineRaw (cs tw td nw nd : ℤ) : List (ℤ × ℤ) :=
  [ ((tw + 1) * cs, td * cs),
    (tw * cs, td * cs),
    (tw * cs, 7 * cs),
    (nw * cs, 7 * cs),
    (nw * cs, (nd + 1) * cs),
    ((nw + 1) * cs, (nd + 1) * cs),
    ((nw + 1) * cs, 0),
    ((tw + 1) * cs, 0) ]

/-- The value of `new Date(month.getFullYear(), month.getMonth() + 1, 0)` in the
source: day 0 of the following month normalizes to the last day of the given
month (for December the following month rolls over to January of the next year
and its day 0 is December 31).  `rata_lastDayOfMonth_succ` below certifies this
normalization: the value is exactly one day before the 1st of the next month. -/
def lastDayOfMonth (y m : Nat) : Date := ⟨y, m, daysInMonth y m⟩

/-- `getPathDescriptionForMonth` for the month `m` of year `y` (the code receives
the month as the `Date` of its first day) and cell size `cs`: the week/day
coordinates of the first day and of day 0 of the following month feed the
vertex formula `monthOutlineRaw`. -/
def getPathDescriptionForMonth (cs : Nat) (y m : Nat) : List (ℤ × ℤ) :=
  monthOutlineRaw cs
    (getWeekNumber ⟨y, m, 1⟩) (getDayNumber ⟨y, m, 1⟩)
    (getWeekNumber (lastDayOfMonth y m)) (getDayNumber (lastDayOfMonth y m))

/-- `d3.range(start, stop)`: the integers from `start` (inclusive) to `stop`
(exclusive). -/
def d3Range (start stop : Nat) : List Nat := List.range' start (stop - start)

/-- The years `generateYearGroups` binds one `<svg class="year">` to:
`d3.range(2016, 2100)`.  The list is a constant of the program — it does not
depend on the loaded data. -/
def calendarYears : List Nat := d3Range 2016 2100

/-- One row of the parsed CSV (`Date` key, numeric `Value`, `Name` label). -/
structure CsvRow where
  date : String
  value : ℤ
  name : String

/-- The value `transformCsvData` associates to a key: the first matching row's
`Value` and `Name`. -/
structure RowVal where
  value : ℤ
  name : String
deriving DecidableEq

/-- `transformCsvData(csv)`: `d3.nest().key(Date).rollup(first row's fields).map`,
i.e. the finite map sending a date string to the `Value`/`Name` of the first
CSV row carrying it (`none` when no row does). -/
def transformCsvData (csv : List CsvRow) : String → Option RowVal :=
  fun k => (csv.filter (fun r => r.date == k)).head?.map (fun r => ⟨r.value, r.name⟩)

/-- The attribute state of one `<rect class="day">`: its bound date string, its
`class` attribute and its `<title>` text. -/
structure DayCell where
  dateStr : String
  cls : String
  title : String
deriving DecidableEq

/-- The cell as created: `generateDayRects` sets `class="day"` and
`attachTitlesToDayRects` sets the `<title>` to the date string itself. -/
def mkDayCell (s : String) : DayCell := ⟨s, "day", s⟩

/-- The d3 quantize scale of `getColorScale`: domain `[0,100]`, range
`color0 .. color9`; bucket `i` is the number of the thresholds
`10, 20, .., 90` not exceeding the value, i.e. `⌊v/10⌋` clamped to `[0, 9]`. -/
def colorScale (v : ℤ) : String := "color" ++ toString (max 0 (min 9 (v / 10)))

/-- `updateClassAndTitleForDayRects` on one cell: cells whose date string is a
key of the data map get `class = "day " ++ color(Value)` and
`title = dateStr ++ ": " ++ Name`; the `.filter(isRectDataInCsvData)` leaves
every other cell untouched. -/
def updateDayCell (data : String → Option RowVal) (c : DayCell) : DayCell :=
  match data c.dateStr with
  | some r => { c with cls := "day " ++ colorScale r.value,
                       title := c.dateStr ++ ": " ++ r.name }
  | none => c

/-- The `d3.csv` callback: on a load error the error is rethrown (no transform,
no render); otherwise the parsed rows are transformed and rendered.  The
rendering step is abstracted as the function `render` consuming the
transformed map. -/
def loadCallback {α : Type} (render : (String → Option RowVal) → α)
    (err : Option String) (csv : List CsvRow) : Except String α :=
  match err with
  | some e => Except.error e
  | none => Except.ok (render (transformCsvData csv))

/-- A directed axis-aligned segment (an edge of the outline path). -/
def Seg : Type := (ℤ × ℤ) × (ℤ × ℤ)

instance : DecidableEq Seg := by
  unfold Seg; infer_instance

/-- The edges of a closed polygon given by its vertex list: consecutive pairs
plus the closing edge back to the first vertex. -/
def outlineEdges (l : List (ℤ × ℤ)) : List Seg := l.zip (l.rotate 1)

/-- A horizontal edge: both endpoints at the same height. -/
def horiz (e : Seg) : Prop := e.1.2 = e.2.2

/-- A vertical edge: both endpoints at the same abscissa. -/
def vert (e : Seg) : Prop := e.1.1 = e.2.1

/-- Membership of a point in an axis-aligned closed segment: both coordinates
between the endpoints (for an axis-aligned segment this is exactly the
segment). -/
def onSeg (e : Seg) (p : ℤ × ℤ) : Prop :=
  min e.1.1 e.2.1 ≤ p.1 ∧ p.1 ≤ max e.1.1 e.2.1 ∧
  min e.1.2 e.2.2 ≤ p.2 ∧ p.2 ≤ max e.1.2 e.2.2

/-- A degenerate (zero-length) edge. -/
def degen (e : Seg) : Prop := e.1 = e.2

instance (e : Seg) : Decidable (degen e) := by
  unfold degen; infer_instance

/-- The non-degenerate edges, as a Boolean filter predicate. -/
def nonDegen (e : Seg) : Bool := decide (¬ degen e)

/-- Two edges are the same segment (up to orientation). -/
def sameEdge (e f : Seg) : Prop :=
  (e.1 = f.1 ∧ e.2 = f.2) ∨ (e.1 = f.2 ∧ e.2 = f.1)

/-- Two edges sharing no point. -/
def edgesDisjoint (e f : Seg) : Prop := ∀ p, ¬(onSeg e p ∧ onSeg f p)

/-- Two edges sharing exactly one point. -/
def edgesMeetOnce (e f : Seg) : Prop :=
  ∃ p, onSeg e p ∧ onSeg f p ∧ ∀ q, onSeg e q → onSeg f q → q = p

/-- A simple closed rectilinear loop, described by its (cyclic) list of
non-degenerate edges: cyclically adjacent edges share exactly one point (their
common vertex) and non-adjacent edges are disjoint. -/
def SimpleLoop (es : List Seg) : Prop :=
  ∀ i j, (hi : i < es.length) → (hj : j < es.length) → i < j →
    ((j = i + 1 ∨ (i = 0 ∧ j + 1 = es.length)) →
      edgesMeetOnce (es.get ⟨i, hi⟩) (es.get ⟨j, hj⟩)) ∧
    (¬(j = i + 1 ∨ (i = 0 ∧ j + 1 = es.length)) →
      edgesDisjoint (es.get ⟨i, hi⟩) (es.get ⟨j, hj⟩))

/-- Modelled from the spec: "a simple rectangle" — the vertices, with
duplicates collapsed, are exactly the four corners of an axis-aligned
rectangle of positive extent. -/
def IsSimpleRectangle (l : List (ℤ × ℤ)) : Prop :=
  ∃ x1 x2 y1 y2 : ℤ, x1 < x2 ∧ y1 < y2 ∧
    l.toFinset = {(x1, y1), (x2, y1), (x2, y2), (x1, y2)}

/-! ### Basic calendar lemmas -/

lemma daysInMonth_pos (y m : Nat) (h1 : 1 ≤ m) (h2 : m ≤ 12) :
    0 < daysInMonth y m := by
  interval_cases m <;> (simp only [daysInMonth]; first | omega | (split <;> omega))

lemma daysInMonth_ge_28 (y m : Nat) (h1 : 1 ≤ m) (h2 : m ≤ 12) :
    28 ≤ daysInMonth y m := by
  interval_cases m <;> (simp only [daysInMonth]; first | omega | (split <;> omega))

lemma daysBeforeMonth_succ (y m : Nat) :
    daysBeforeMonth y (m + 1) = daysBeforeMonth y m + daysInMonth y m := rfl

lemma daysBeforeMonth_13 (y : Nat) : daysBeforeMonth y 13 = daysInYear y := by
  rcases h : isLeap y <;>
    simp [daysBeforeMonth, daysInMonth, daysInYear, h]

lemma isLeap_iff (y : Nat) :
    isLeap y = true ↔ ((y % 4 = 0 ∧ y % 100 ≠ 0) ∨ y % 400 = 0) := by
  simp [isLeap, Bool.or_eq_true, Bool.and_eq_true, beq_iff_eq, bne_iff_ne]

lemma daysBeforeYear_succ (y : Nat) (hy : 1 ≤ y) :
    daysBeforeYear (y + 1) = daysBeforeYear y + daysInYear y := by
  obtain ⟨x, rfl⟩ : ∃ x, y = x + 1 := ⟨y - 1, by omega⟩
  unfold daysBeforeYear
  simp only [Nat.add_sub_cancel]
  have hD : (daysInYear (x + 1) = 366 ∧
      (((x + 1) % 4 = 0 ∧ (x + 1) % 100 ≠ 0) ∨ (x + 1) % 400 = 0)) ∨
      (daysInYear (x + 1) = 365 ∧
      ¬(((x + 1) % 4 = 0 ∧ (x + 1) % 100 ≠ 0) ∨ (x + 1) % 400 = 0)) := by
    rcases hb : isLeap (x + 1)
    · refine Or.inr ⟨by simp [daysInYear, hb], ?_⟩
      rw [← isLeap_iff]
      simp [hb]
    · exact Or.inl ⟨by simp [daysInYear, hb], (isLeap_iff _).mp hb⟩
  have e4 : ((x + 1) % 4 = 0 ∧ (x + 1) / 4 = x / 4 + 1) ∨
      ((x + 1) % 4 ≠ 0 ∧ (x + 1) / 4 = x / 4) := by omega
  have e100 : ((x + 1) % 100 = 0 ∧ (x + 1) / 100 = x / 100 + 1) ∨
      ((x + 1) % 100 ≠ 0 ∧ (x + 1) / 100 = x / 100) := by omega
  have e400 : ((x + 1) % 400 = 0 ∧ (x + 1) / 400 = x / 400 + 1) ∨
      ((x + 1) % 400 ≠ 0 ∧ (x + 1) / 400 = x / 400) := by omega
  have hb1 : x / 100 ≤ x / 4 := by omega
  have hb2 : (x + 1) / 100 ≤ (x + 1) / 4 := by omega
  generalize hA : (x + 1) / 4 = A at e4 hb2 ⊢
  generalize ha : x / 4 = a at e4 hb1 ⊢
  generalize hB : (x + 1) / 100 = B at e100 hb2 ⊢
  generalize hbq : x / 100 = b at e100 hb1 ⊢
  generalize hC : (x + 1) / 400 = C at e400 ⊢
  generalize hc : x / 400 = c at e400 ⊢
  omega

lemma daysBeforeMonth_mono (y : Nat) {m m' : Nat} (h : m ≤ m') :
    daysBeforeMonth y m ≤ daysBeforeMonth y m' := by
  induction h with
  | refl => exact le_refl _
  | step _ ih => rw [daysBeforeMonth_succ]; omega

lemma daysBeforeMonth_add_le (y m : Nat) (h2 : m ≤ 12) :
    daysBeforeMonth y m + daysInMonth y m ≤ daysInYear y := by
  rw [← daysBeforeMonth_succ, ← daysBeforeMonth_13 y]
  exact daysBeforeMonth_mono y (by omega)

lemma dayOfYear0_lt (d : Date) (h : d.Valid) : dayOfYear0 d < daysInYear d.year := by
  obtain ⟨hy, hm1, hm2, hd1, hd2⟩ := h
  have hmain := daysBeforeMonth_add_le d.year d.month hm2
  unfold dayOfYear0
  omega

lemma daysInYear_le (y : Nat) : daysInYear y ≤ 366 := by
  unfold daysInYear; split <;> omega

/-! ### Day-count lemmas -/

lemma valid_mk (y m d : Nat) :
    (Date.mk y m d).Valid ↔
      1 ≤ y ∧ 1 ≤ m ∧ m ≤ 12 ∧ 1 ≤ d ∧ d ≤ daysInMonth y m := Iff.rfl

lemma rata_mk (y m d : Nat) :
    rata ⟨y, m, d⟩ = daysBeforeYear y + (daysBeforeMonth y m + (d - 1)) := rfl

lemma rata_jan1 (y : Nat) : rata ⟨y, 1, 1⟩ = daysBeforeYear y := by
  simp [rata, dayOfYear0, daysBeforeMonth, daysInMonth]

lemma rata_split (d : Date) : rata d = rata ⟨d.year, 1, 1⟩ + dayOfYear0 d := by
  rw [rata_jan1]; rfl

lemma nextDay_mk (y m d : Nat) :
    nextDay ⟨y, m, d⟩ =
      if d < daysInMonth y m then ⟨y, m, d + 1⟩
      else if m < 12 then ⟨y, m + 1, 1⟩ else ⟨y + 1, 1, 1⟩ := rfl

lemma nextDay_valid (d : Date) (h : d.Valid) : (nextDay d).Valid := by
  obtain ⟨Y, M, D⟩ := d
  rw [valid_mk] at h
  obtain ⟨hy, hm1, hm2, hd1, hd2⟩ := h
  rw [nextDay_mk]
  by_cases h1 : D < daysInMonth Y M
  · rw [if_pos h1, valid_mk]
    exact ⟨hy, hm1, hm2, by omega, by omega⟩
  · rw [if_neg h1]
    by_cases h2 : M < 12
    · rw [if_pos h2, valid_mk]
      exact ⟨hy, by omega, by omega, le_refl 1,
        daysInMonth_pos Y (M + 1) (by omega) (by omega)⟩
    · rw [if_neg h2, valid_mk]
      exact ⟨by omega, le_refl 1, by omega, le_refl 1,
        daysInMonth_pos (Y + 1) 1 (by omega) (by omega)⟩

lemma rata_nextDay (d : Date) (h : d.Valid) : rata (nextDay d) = rata d + 1 := by
  obtain ⟨Y, M, D⟩ := d
  rw [valid_mk] at h
  obtain ⟨hy, hm1, hm2, hd1, hd2⟩ := h
  rw [nextDay_mk]
  by_cases h1 : D < daysInMonth Y M
  · rw [if_pos h1, rata_mk, rata_mk]
    omega
  · rw [if_neg h1]
    have hde : D = daysInMonth Y M := by omega
    have hpos : 0 < daysInMonth Y M := daysInMonth_pos Y M hm1 hm2
    by_cases h2 : M < 12
    · rw [if_pos h2, rata_mk, rata_mk, daysBeforeMonth_succ]
      omega
    · rw [if_neg h2, rata_mk, rata_mk]
      have hm' : M = 12 := by omega
      subst hm'
      have h13 : daysBeforeMonth Y 13 = daysInYear Y := daysBeforeMonth_13 Y
      have hdb : daysBeforeYear (Y + 1) = daysBeforeYear Y + daysInYear Y :=
        daysBeforeYear_succ Y hy
      have h12 : daysBeforeMonth Y 13 = daysBeforeMonth Y 12 + daysInMonth Y 12 :=
        daysBeforeMonth_succ Y 12
      have h31 : daysInMonth Y 12 = 31 := rfl
      have h0 : daysBeforeMonth (Y + 1) 1 = 0 := rfl
      omega

/-! ### Week-number lemmas -/

lemma dow_lt_7 (n : Nat) : dow n < 7 := Nat.mod_lt _ (by omega)

lemma getWeekNumber_closed (d : Date) :
    getWeekNumber d =
      ((dow (rata ⟨d.year, 1, 1⟩) : ℤ) + (dayOfYear0 d : ℤ)) / 7 := by
  unfold getWeekNumber timeWeekCount sundayFloor dow
  rw [rata_split d]
  omega

lemma countP_sundays (a : Nat) : ∀ k : Nat,
    (List.range k).countP (fun i => dow (a + i + 1) == 0) = (dow a + k) / 7 := by
  intro k
  induction k with
  | zero =>
      simp only [List.range_zero, List.countP_nil]
      have := dow_lt_7 a
      omega
  | succ n ih =>
      rw [List.range_succ, List.countP_append, ih]
      simp only [List.countP_cons, List.countP_nil, beq_iff_eq]
      unfold dow
      split <;> omega

lemma getWeekNumber_eq_specWeekIndex (d : Date) :
    getWeekNumber d = (specWeekIndex d : ℤ) := by
  rw [getWeekNumber_closed]
  unfold specWeekIndex
  rw [countP_sundays]
  omega

/-! ### The month outline's corner quantities -/

lemma lastDayOfMonth_valid (y m : Nat) (hy : 1 ≤ y) (hm1 : 1 ≤ m) (hm2 : m ≤ 12) :
    (lastDayOfMonth y m).Valid := by
  rw [show lastDayOfMonth y m = (⟨y, m, daysInMonth y m⟩ : Date) from rfl, valid_mk]
  exact ⟨hy, hm1, hm2, daysInMonth_pos y m hm1 hm2, le_refl _⟩

lemma rata_lastDayOfMonth_succ (y m : Nat) (hy : 1 ≤ y) (hm1 : 1 ≤ m) (hm2 : m ≤ 12) :
    rata (lastDayOfMonth y m) + 1 =
      rata (if m = 12 then (⟨y + 1, 1, 1⟩ : Date) else ⟨y, m + 1, 1⟩) := by
  have hv : (lastDayOfMonth y m).Valid := lastDayOfMonth_valid y m hy hm1 hm2
  have h := rata_nextDay _ hv
  have hn : nextDay (lastDayOfMonth y m) =
      if m = 12 then (⟨y + 1, 1, 1⟩ : Date) else ⟨y, m + 1, 1⟩ := by
    rw [show lastDayOfMonth y m = (⟨y, m, daysInMonth y m⟩ : Date) from rfl, nextDay_mk,
      if_neg (lt_irrefl _)]
    by_cases hm : m = 12
    · subst hm
      rw [if_neg (by omega), if_pos rfl]
    · rw [if_pos (by omega), if_neg hm]
  rw [hn] at h
  omega

/-- **C1**: for every month (year at least 1, month 1..12) and positive cell
size, the builder returns exactly the 8-vertex closed rectilinear path
`moveto ((tw+1)cs, td·cs), (tw·cs, td·cs), (tw·cs, 7cs), (nw·cs, 7cs),
(nw·cs, (nd+1)cs), ((nw+1)cs, (nd+1)cs), ((nw+1)cs, 0), ((tw+1)cs, 0), close`,
where `tw`/`td` are the week-of-year (Sunday-boundary count) and day-of-week of
the month's first day and `nw`/`nd` those of its last day; the first conjunct
certifies that `lastDayOfMonth` (day 0 of the following month) is indeed one
day before the 1st of the next month. -/
theorem c1_month_outline (y m cs : ℕ) (hy : 1 ≤ y) (hm1 : 1 ≤ m) (hm2 : m ≤ 12)
    (hcs : 0 < cs) :
    rata (lastDayOfMonth y m) + 1 =
      rata (if m = 12 then (⟨y + 1, 1, 1⟩ : Date) else ⟨y, m + 1, 1⟩) ∧
    getPathDescriptionForMonth cs y m =
      [ (((specWeekIndex ⟨y, m, 1⟩ : ℤ) + 1) * cs, (getDayNumber ⟨y, m, 1⟩ : ℤ) * cs),
        ((specWeekIndex ⟨y, m, 1⟩ : ℤ) * cs, (getDayNumber ⟨y, m, 1⟩ : ℤ) * cs),
        ((specWeekIndex ⟨y, m, 1⟩ : ℤ) * cs, 7 * cs),
        ((specWeekIndex (lastDayOfMonth y m) : ℤ) * cs, 7 * cs),
        ((specWeekIndex (lastDayOfMonth y m) : ℤ) * cs,
          ((getDayNumber (lastDayOfMonth y m) : ℤ) + 1) * cs),
        (((specWeekIndex (lastDayOfMonth y m) : ℤ) + 1) * cs,
          ((getDayNumber (lastDayOfMonth y m) : ℤ) + 1) * cs),
        (((specWeekIndex (lastDayOfMonth y m) : ℤ) + 1) * cs, 0),
        (((specWeekIndex ⟨y, m, 1⟩ : ℤ) + 1) * cs, 0) ] := by
  refine ⟨rata_lastDayOfMonth_succ y m hy hm1 hm2, ?_⟩
  unfold getPathDescriptionForMonth monthOutlineRaw
  rw [getWeekNumber_eq_specWeekIndex ⟨y, m, 1⟩,
    getWeekNumber_eq_specWeekIndex (lastDayOfMonth y m)]

/-- Witness for `c1_month_outline` at January 2016 with cell size 17. -/
theorem c1_month_outline_witness :
    (1 ≤ 2016 ∧ 1 ≤ 1 ∧ 1 ≤ 12 ∧ 0 < 17) ∧
    (rata (lastDayOfMonth 2016 1) + 1 =
      rata (if 1 = 12 then (⟨2016 + 1, 1, 1⟩ : Date) else ⟨2016, 1 + 1, 1⟩) ∧
    getPathDescriptionForMonth 17 2016 1 =
      [ (((specWeekIndex ⟨2016, 1, 1⟩ : ℤ) + 1) * 17, (getDayNumber ⟨2016, 1, 1⟩ : ℤ) * 17),
        ((specWeekIndex ⟨2016, 1, 1⟩ : ℤ) * 17, (getDayNumber ⟨2016, 1, 1⟩ : ℤ) * 17),
        ((specWeekIndex ⟨2016, 1, 1⟩ : ℤ) * 17, 7 * 17),
        ((specWeekIndex (lastDayOfMonth 2016 1) : ℤ) * 17, 7 * 17),
        ((specWeekIndex (lastDayOfMonth 2016 1) : ℤ) * 17,
          ((getDayNumber (lastDayOfMonth 2016 1) : ℤ) + 1) * 17),
        (((specWeekIndex (lastDayOfMonth 2016 1) : ℤ) + 1) * 17,
          ((getDayNumber (lastDayOfMonth 2016 1) : ℤ) + 1) * 17),
        (((specWeekIndex (lastDayOfMonth 2016 1) : ℤ) + 1) * 17, 0),
        (((specWeekIndex ⟨2016, 1, 1⟩ : ℤ) + 1) * 17, 0) ]) :=
  ⟨⟨by omega, by omega, by omega, by omega⟩,
    c1_month_outline 2016 1 17 (by omega) (by omega) (by omega) (by omega)⟩

/-- **C2**: for every valid calendar date the mapper's week index equals the
spec's Sunday-boundary count since January 1 (week of January 1 = 0), the day
index is the weekday with 0 = Sunday .. 6 = Saturday (in particular below 7),
and the pixel position is (weekIndex · cellSize, dayIndex · cellSize); all the
functions involved are total. -/
theorem c2_date_grid_mapper (d : Date) (cs : ℕ) (h : d.Valid) :
    getWeekNumber d = (specWeekIndex d : ℤ) ∧
    getDayNumber d = dow (rata d) ∧
    getDayNumber d < 7 ∧
    getX cs d = getWeekNumber d * (cs : ℤ) ∧
    getY cs d = (getDayNumber d : ℤ) * (cs : ℤ) :=
  ⟨getWeekNumber_eq_specWeekIndex d, rfl, dow_lt_7 _, rfl, rfl⟩

/-- Witness for `c2_date_grid_mapper` at January 1, 2016 with cell size 17. -/
theorem c2_date_grid_mapper_witness :
    (Date.mk 2016 1 1).Valid ∧
    (getWeekNumber ⟨2016, 1, 1⟩ = (specWeekIndex ⟨2016, 1, 1⟩ : ℤ) ∧
    getDayNumber ⟨2016, 1, 1⟩ = dow (rata ⟨2016, 1, 1⟩) ∧
    getDayNumber ⟨2016, 1, 1⟩ < 7 ∧
    getX 17 ⟨2016, 1, 1⟩ = getWeekNumber ⟨2016, 1, 1⟩ * (17 : ℤ) ∧
    getY 17 ⟨2016, 1, 1⟩ = (getDayNumber ⟨2016, 1, 1⟩ : ℤ) * (17 : ℤ)) :=
  ⟨by decide, c2_date_grid_mapper ⟨2016, 1, 1⟩ 17 (by decide)⟩

/-- **C4** (counterexample): December 31, 2028 is a valid date whose week index
under the code is 53, not at most 52 (2028 is a leap year starting on a
Saturday, so its grid needs 54 week columns). -/
theorem c4_week_index_53 :
    (Date.mk 2028 12 31).Valid ∧ getWeekNumber ⟨2028, 12, 31⟩ = 53 ∧
    ¬(getWeekNumber ⟨2028, 12, 31⟩ ≤ 52) := by
  refine ⟨by decide, by decide, by decide⟩

/-- **C4** (amended): for every valid calendar date the week index lies in
[0, 53] (53 is attained, see the counterexample) and the day index lies in
[0, 6]. -/
theorem c4_index_bounds (d : Date) (h : d.Valid) :
    0 ≤ getWeekNumber d ∧ getWeekNumber d ≤ 53 ∧ getDayNumber d ≤ 6 := by
  have hc := getWeekNumber_closed d
  have h1 := dow_lt_7 (rata ⟨d.year, 1, 1⟩)
  have h2 := dayOfYear0_lt d h
  have h3 := daysInYear_le d.year
  have h4 := dow_lt_7 (rata d)
  refine ⟨?_, ?_, ?_⟩
  · rw [hc]; omega
  · rw [hc]; omega
  · unfold getDayNumber; omega

/-- Witness for `c4_index_bounds` at December 31, 2028. -/
theorem c4_index_bounds_witness :
    (Date.mk 2028 12 31).Valid ∧
    (0 ≤ getWeekNumber ⟨2028, 12, 31⟩ ∧ getWeekNumber ⟨2028, 12, 31⟩ ≤ 53 ∧
      getDayNumber ⟨2028, 12, 31⟩ ≤ 6) :=
  ⟨by decide, c4_index_bounds ⟨2028, 12, 31⟩ (by decide)⟩

/-! ### Enumerating the days of a year -/

lemma timeDaysGo_eq_map : ∀ (n : Nat) (d : Date),
    timeDaysGo n d = (List.range n).map (fun i => nextDay^[i] d) := by
  intro n
  induction n with
  | zero => intro d; rfl
  | succ k ih =>
      intro d
      rw [show timeDaysGo (k + 1) d = d :: timeDaysGo k (nextDay d) from rfl, ih,
        List.range_succ_eq_map]
      simp only [List.map_cons, Function.iterate_zero_apply, List.map_map]
      have hfun : (fun i => nextDay^[i] (nextDay d)) =
          ((fun i => nextDay^[i] d) ∘ Nat.succ) := by
        funext i
        simp [Function.comp_apply, Function.iterate_succ_apply]
      rw [hfun]

lemma timeDaysGo_length (n : Nat) (d : Date) : (timeDaysGo n d).length = n := by
  rw [timeDaysGo_eq_map]
  simp

lemma timeDaysGo_getLast : ∀ (n : Nat) (d : Date),
    (timeDaysGo (n + 1) d).getLast? = some (nextDay^[n] d) := by
  intro n
  induction n with
  | zero => intro d; rfl
  | succ k ih =>
      intro d
      rw [show timeDaysGo (k + 2) d =
        d :: timeDaysGo (k + 1) (nextDay d) from rfl]
      rw [show timeDaysGo (k + 1) (nextDay d) =
        nextDay d :: timeDaysGo k (nextDay (nextDay d)) from rfl]
      rw [List.getLast?_cons_cons]
      rw [show nextDay d :: timeDaysGo k (nextDay (nextDay d)) =
        timeDaysGo (k + 1) (nextDay d) from rfl, ih,
        Function.iterate_succ_apply]

lemma iterate_nextDay_valid_rata (d : Date) (h : d.Valid) (n : Nat) :
    (nextDay^[n] d).Valid ∧ rata (nextDay^[n] d) = rata d + n := by
  induction n with
  | zero => exact ⟨h, rfl⟩
  | succ k ih =>
      rw [Function.iterate_succ_apply']
      refine ⟨nextDay_valid _ ih.1, ?_⟩
      rw [rata_nextDay _ ih.1, ih.2]
      omega

lemma iterate_in_month (y m : Nat) : ∀ (k day : Nat), 1 ≤ day →
    day + k ≤ daysInMonth y m → nextDay^[k] ⟨y, m, day⟩ = ⟨y, m, day + k⟩ := by
  intro k
  induction k with
  | zero => intro day h1 h2; simp
  | succ j ih =>
      intro day h1 h2
      rw [Function.iterate_succ_apply, nextDay_mk, if_pos (by omega),
        ih (day + 1) (by omega) (by omega)]
      congr 1
      omega

lemma month_hop (y m : Nat) (hm1 : 1 ≤ m) (hm2 : m ≤ 12) :
    nextDay^[daysInMonth y m] ⟨y, m, 1⟩ =
      if m = 12 then (⟨y + 1, 1, 1⟩ : Date) else ⟨y, m + 1, 1⟩ := by
  have hpos := daysInMonth_pos y m hm1 hm2
  obtain ⟨p, hp⟩ : ∃ p, daysInMonth y m = p + 1 := ⟨daysInMonth y m - 1, by omega⟩
  rw [hp, Function.iterate_succ_apply', iterate_in_month y m p 1 (le_refl 1) (by omega),
    show 1 + p = p + 1 from by omega, nextDay_mk, if_neg (by omega)]
  by_cases hm : m = 12
  · subst hm
    rw [if_neg (by omega), if_pos rfl]
  · rw [if_pos (by omega), if_neg hm]

lemma iterate_to_month (y : Nat) : ∀ m, m ≤ 11 →
    nextDay^[daysBeforeMonth y (m + 1)] ⟨y, 1, 1⟩ = ⟨y, m + 1, 1⟩ := by
  intro m
  induction m with
  | zero => intro hm; rfl
  | succ j ih =>
      intro hm
      rw [daysBeforeMonth_succ, Nat.add_comm, Function.iterate_add_apply,
        ih (by omega), month_hop y (j + 1) (by omega) (by omega), if_neg (by omega)]

lemma iterate_to_dec31 (y : Nat) :
    nextDay^[daysBeforeMonth y 12 + 30] ⟨y, 1, 1⟩ = ⟨y, 12, 31⟩ := by
  rw [Nat.add_comm, Function.iterate_add_apply, iterate_to_month y 11 (le_refl _)]
  rw [iterate_in_month y 12 30 1 (le_refl 1) (by show 1 + 30 ≤ 31; omega)]

/-- **C5**: for every year (at least 1), the enumeration of its days has
exactly 365 entries (366 in leap years), starts at January 1, ends at
December 31, and is strictly ascending (day numbers strictly increase). -/
theorem c5_enumerate_days (y : ℕ) (hy : 1 ≤ y) :
    (getAllDaysInYear y).length = (if isLeap y then 366 else 365) ∧
    (getAllDaysInYear y).head? = some ⟨y, 1, 1⟩ ∧
    (getAllDaysInYear y).getLast? = some ⟨y, 12, 31⟩ ∧
    (getAllDaysInYear y).Pairwise (fun a b => rata a < rata b) := by
  have hn : rata ⟨y + 1, 1, 1⟩ - rata ⟨y, 1, 1⟩ = daysInYear y := by
    rw [rata_jan1, rata_jan1, daysBeforeYear_succ y hy]
    omega
  have hdiy : daysInYear y = (daysBeforeMonth y 12 + 30) + 1 := by
    have h13 := daysBeforeMonth_13 y
    have h12 : daysBeforeMonth y 13 = daysBeforeMonth y 12 + daysInMonth y 12 :=
      daysBeforeMonth_succ y 12
    have h31 : daysInMonth y 12 = 31 := rfl
    omega
  have hv : (Date.mk y 1 1).Valid := by
    rw [valid_mk]
    refine ⟨hy, le_refl 1, by omega, le_refl 1, ?_⟩
    show (1 : ℕ) ≤ 31
    omega
  unfold getAllDaysInYear
  rw [hn]
  refine ⟨?_, ?_, ?_, ?_⟩
  · rw [timeDaysGo_length]
    rfl
  · rw [hdiy]
    rfl
  · rw [hdiy, timeDaysGo_getLast, iterate_to_dec31]
  · rw [timeDaysGo_eq_map, List.pairwise_map]
    refine (List.pairwise_lt_range _).imp ?_
    intro i j hij
    have hi := (iterate_nextDay_valid_rata _ hv i).2
    have hj := (iterate_nextDay_valid_rata _ hv j).2
    omega

/-- Witness for `c5_enumerate_days` at the year 2016. -/
theorem c5_enumerate_days_witness :
    1 ≤ 2016 ∧
    ((getAllDaysInYear 2016).length = (if isLeap 2016 then 366 else 365) ∧
    (getAllDaysInYear 2016).head? = some ⟨2016, 1, 1⟩ ∧
    (getAllDaysInYear 2016).getLast? = some ⟨2016, 12, 31⟩ ∧
    (getAllDaysInYear 2016).Pairwise (fun a b => rata a < rata b)) :=
  ⟨by omega, c5_enumerate_days 2016 (by omega)⟩

/-! ### Small claims: restyling pass, load callback, year range -/

/-- **C8**: a day cell whose date string has no row in the data map keeps the
attributes set at creation: class `"day"` and title equal to its date string;
only cells whose date string is a key of the map are restyled. -/
theorem c8_no_data_cell_untouched (data : String → Option RowVal) (s : String)
    (h : data s = none) :
    updateDayCell data (mkDayCell s) = mkDayCell s ∧
    (mkDayCell s).cls = "day" ∧ (mkDayCell s).title = s := by
  refine ⟨?_, rfl, rfl⟩
  unfold updateDayCell mkDayCell
  simp [h]

/-- Witness for `c8_no_data_cell_untouched` at the empty data map and the date
string of January 5, 2016. -/
theorem c8_no_data_cell_untouched_witness :
    (fun _ : String => (none : Option RowVal)) "2016-01-05" = none ∧
    (updateDayCell (fun _ => none) (mkDayCell "2016-01-05") = mkDayCell "2016-01-05" ∧
    (mkDayCell "2016-01-05").cls = "day" ∧ (mkDayCell "2016-01-05").title = "2016-01-05") :=
  ⟨rfl, c8_no_data_cell_untouched (fun _ => none) "2016-01-05" rfl⟩

/-- **C9**: when the CSV load callback receives a non-null error it rethrows it
and neither the transform nor the render runs (the result is `Except.error`,
whatever the rendering function is); with no error the rows are transformed and
rendered. -/
theorem c9_load_error_propagates {α : Type} (render : (String → Option RowVal) → α)
    (e : String) (csv : List CsvRow) :
    loadCallback render (some e) csv = Except.error e ∧
    (∀ csv2 : List CsvRow,
      loadCallback render none csv2 = Except.ok (render (transformCsvData csv2))) :=
  ⟨rfl, fun _ => rfl⟩

/-- **C10**: the program builds one year grid per element of `d3.range(2016, 2100)`:
exactly the 84 years 2016 through 2099, a constant list independent of the data. -/
theorem c10_year_range :
    calendarYears.length = 84 ∧
    ∀ y : ℕ, y ∈ calendarYears ↔ (2016 ≤ y ∧ y ≤ 2099) := by
  constructor
  · simp [calendarYears, d3Range]
  · intro y
    rw [show calendarYears = List.range' 2016 84 from rfl, List.mem_range'_1]
    omega

/-- **C7** (counterexample): no real month has its first and last day in the
same week column (see `c6` machinery: months span at least 28 days), so the
claim is evaluated on the builder's vertex formula over grid coordinates.  With
`thisWeek = nextWeek = 0` but the first day on a Friday (`thisDow = 5`,
`nextDow = 6`, cell size 17) the unmodified formula does not produce a simple
rectangle: its vertices collapse to five distinct points, not four corners. -/
theorem c7_same_column_not_rectangle :
    ¬ IsSimpleRectangle (monthOutlineRaw 17 0 5 0 6) := by
  rintro ⟨x1, x2, y1, y2, hx, hy, hs⟩
  have hcard : (monthOutlineRaw 17 0 5 0 6).toFinset.card = 5 := by decide
  rw [hs] at hcard
  have a1 := Finset.card_insert_le ((x1, y1) : ℤ × ℤ) {(x2, y1), (x2, y2), (x1, y2)}
  have a2 := Finset.card_insert_le ((x2, y1) : ℤ × ℤ) {(x2, y2), (x1, y2)}
  have a3 := Finset.card_insert_le ((x2, y2) : ℤ × ℤ) {(x1, y2)}
  have a4 : ({((x1 : ℤ), (y2 : ℤ))} : Finset (ℤ × ℤ)).card = 1 :=
    Finset.card_singleton _
  omega

lemma isSimpleRectangle_full_column (cs tw : ℤ) (hcs : 0 < cs) :
    IsSimpleRectangle (monthOutlineRaw cs tw 0 tw 6) := by
  refine ⟨tw * cs, (tw + 1) * cs, 0, 7 * cs, ?_, ?_, ?_⟩
  · have he : (tw + 1) * cs = tw * cs + cs := by ring
    linarith
  · linarith
  · have hl : monthOutlineRaw cs tw 0 tw 6 =
        [((tw + 1) * cs, 0), (tw * cs, 0), (tw * cs, 7 * cs), (tw * cs, 7 * cs),
          (tw * cs, 7 * cs), ((tw + 1) * cs, 7 * cs), ((tw + 1) * cs, 0),
          ((tw + 1) * cs, 0)] := by
      simp only [monthOutlineRaw]
      norm_num
    rw [hl]
    ext p
    simp only [List.mem_toFinset, List.mem_cons, List.not_mem_nil, or_false,
      Finset.mem_insert, Finset.mem_singleton]
    tauto

lemma rectangle_only_full_column (cs A B W W1 x1 x2 y1 y2 : ℤ) (hcs : 0 < cs)
    (hA0 : 0 ≤ A) (hA7 : A < 7 * cs) (hB0 : 0 < B) (hB7 : B ≤ 7 * cs)
    (hy : y1 < y2)
    (m0 : (W1 = x1 ∧ A = y1) ∨ (W1 = x2 ∧ A = y1) ∨
      (W1 = x2 ∧ A = y2) ∨ (W1 = x1 ∧ A = y2))
    (m2 : (W = x1 ∧ 7 * cs = y1) ∨ (W = x2 ∧ 7 * cs = y1) ∨
      (W = x2 ∧ 7 * cs = y2) ∨ (W = x1 ∧ 7 * cs = y2))
    (m4 : (W = x1 ∧ B = y1) ∨ (W = x2 ∧ B = y1) ∨
      (W = x2 ∧ B = y2) ∨ (W = x1 ∧ B = y2))
    (m6 : (W1 = x1 ∧ (0 : ℤ) = y1) ∨ (W1 = x2 ∧ (0 : ℤ) = y1) ∨
      (W1 = x2 ∧ (0 : ℤ) = y2) ∨ (W1 = x1 ∧ (0 : ℤ) = y2)) :
    A = 0 ∧ B = 7 * cs := by
  omega

/-- **C7** (amended): on the builder's vertex formula over grid coordinates with
`thisWeek = nextWeek` (no real month attains this; `month_week_span` shows every
month spans at least three week boundaries), the outline is a simple rectangle
exactly when additionally the first day is a Sunday (`thisDow = 0`) and the
last day a Saturday (`nextDow = 6`); in that configuration the distinct
vertices are the four corners of the column rectangle, with no special-casing
in the formula. -/
theorem c7_same_column_rectangle_iff (cs tw td nd : ℤ) (hcs : 0 < cs)
    (htd0 : 0 ≤ td) (htd6 : td ≤ 6) (hnd0 : 0 ≤ nd) (hnd6 : nd ≤ 6) :
    IsSimpleRectangle (monthOutlineRaw cs tw td tw nd) ↔ (td = 0 ∧ nd = 6) := by
  constructor
  · rintro ⟨x1, x2, y1, y2, hx, hy, hs⟩
    have hA0 : (0 : ℤ) ≤ td * cs := mul_nonneg htd0 hcs.le
    have hA7 : td * cs < 7 * cs := by
      have h6 : td * cs ≤ 6 * cs := mul_le_mul_of_nonneg_right htd6 hcs.le
      linarith
    have hB0 : (0 : ℤ) < (nd + 1) * cs := by positivity
    have hB7 : (nd + 1) * cs ≤ 7 * cs :=
      mul_le_mul_of_nonneg_right (by omega) hcs.le
    have m0 : ((tw + 1) * cs, td * cs) ∈ (monthOutlineRaw cs tw td tw nd).toFinset := by
      simp [monthOutlineRaw]
    have m2 : (tw * cs, 7 * cs) ∈ (monthOutlineRaw cs tw td tw nd).toFinset := by
      simp [monthOutlineRaw]
    have m4 : (tw * cs, (nd + 1) * cs) ∈ (monthOutlineRaw cs tw td tw nd).toFinset := by
      simp [monthOutlineRaw]
    have m6 : ((tw + 1) * cs, (0 : ℤ)) ∈ (monthOutlineRaw cs tw td tw nd).toFinset := by
      simp [monthOutlineRaw]
    rw [hs] at m0 m2 m4 m6
    simp only [Finset.mem_insert, Finset.mem_singleton, Prod.mk.injEq] at m0 m2 m4 m6
    have key := rectangle_only_full_column cs (td * cs) ((nd + 1) * cs)
      (tw * cs) ((tw + 1) * cs) x1 x2 y1 y2 hcs hA0 hA7 hB0 hB7 hy m0 m2 m4 m6
    constructor
    · rcases mul_eq_zero.mp key.1 with h | h
      · exact h
      · exact absurd h (by omega)
    · have h7 : (nd + 1) * cs = 7 * cs := key.2
      have hne : cs ≠ 0 := by omega
      have := mul_right_cancel₀ hne h7
      omega
  · rintro ⟨rfl, rfl⟩
    exact isSimpleRectangle_full_column cs tw hcs

/-- Witness for `c7_same_column_rectangle_iff` at cell size 17, week column 0,
first day Sunday, last day Saturday. -/
theorem c7_same_column_rectangle_iff_witness :
    ((0 : ℤ) < 17 ∧ (0 : ℤ) ≤ 0 ∧ (0 : ℤ) ≤ 6 ∧ (0 : ℤ) ≤ 6 ∧ (6 : ℤ) ≤ 6) ∧
    (IsSimpleRectangle (monthOutlineRaw 17 0 0 0 6) ↔ ((0 : ℤ) = 0 ∧ (6 : ℤ) = 6)) :=
  ⟨⟨by omega, by omega, by omega, by omega, by omega⟩,
    c7_same_column_rectangle_iff 17 0 0 6 (by omega) (by omega) (by omega)
      (by omega) (by omega)⟩

/-- **C3** (counterexample): with cellSize 17 and month January 2016, the code
gives January 31, 2016 week index 5 (five Sundays fall in January 2 .. 31), not
4, and the outline vertices are not the ones the claim lists. -/
theorem c3_jan2016_counterexample :
    getWeekNumber ⟨2016, 1, 31⟩ ≠ 4 ∧
    getPathDescriptionForMonth 17 2016 1 ≠
      [(17, 85), (0, 85), (0, 119), (68, 119), (68, 17), (85, 17), (85, 0), (17, 0)] := by
  constructor <;> decide

/-- **C3** (amended): with cellSize 17 and month January 2016, the first day has
day index 5 and week index 0, the last day has day index 0 and week index 5,
and the outline vertices are (17,85), (0,85), (0,119), (85,119), (85,17),
(102,17), (102,0), (17,0). -/
theorem c3_jan2016_example :
    getDayNumber ⟨2016, 1, 1⟩ = 5 ∧ getWeekNumber ⟨2016, 1, 1⟩ = 0 ∧
    getDayNumber ⟨2016, 1, 31⟩ = 0 ∧ getWeekNumber ⟨2016, 1, 31⟩ = 5 ∧
    getPathDescriptionForMonth 17 2016 1 =
      [(17, 85), (0, 85), (0, 119), (85, 119), (85, 17), (102, 17), (102, 0), (17, 0)] := by
  refine ⟨by decide, by decide, by decide, by decide, by decide⟩

/-! ### Geometry of the month outline (claim C6) -/

lemma onSeg_left (p q : ℤ × ℤ) : onSeg (p, q) p :=
  ⟨min_le_left _ _, le_max_left _ _, min_le_left _ _, le_max_left _ _⟩

lemma onSeg_right (p q : ℤ × ℤ) : onSeg (p, q) q :=
  ⟨min_le_right _ _, le_max_right _ _, min_le_right _ _, le_max_right _ _⟩

lemma meet_consecutive (p q r : ℤ × ℤ)
    (huniq : ∀ z, onSeg (p, q) z → onSeg (q, r) z → z = q) :
    edgesMeetOnce (p, q) (q, r) :=
  ⟨q, onSeg_right p q, onSeg_left q r, huniq⟩

lemma meet_wrap (a b c : ℤ × ℤ)
    (huniq : ∀ z, onSeg (a, b) z → onSeg (c, a) z → z = a) :
    edgesMeetOnce (a, b) (c, a) :=
  ⟨a, onSeg_left a b, onSeg_right c a, huniq⟩

lemma month_week_span (y m : Nat) (hm1 : 1 ≤ m) (hm2 : m ≤ 12) :
    getWeekNumber ⟨y, m, 1⟩ + 3 ≤ getWeekNumber (lastDayOfMonth y m) := by
  have h28 := daysInMonth_ge_28 y m hm1 hm2
  have hd7 := dow_lt_7 (rata ⟨y, 1, 1⟩)
  rw [show lastDayOfMonth y m = (⟨y, m, daysInMonth y m⟩ : Date) from rfl,
    getWeekNumber_closed, getWeekNumber_closed]
  dsimp only
  unfold dayOfYear0
  dsimp only
  omega

lemma outline_abs (cs T N A B : ℤ) (hcs : 0 < cs)
    (hA0 : 0 ≤ A) (hA6 : A ≤ 6 * cs) (hB1 : cs ≤ B) (hB7 : B ≤ 7 * cs)
    (hTN : T + 3 * cs ≤ N) :
    (¬sameEdge ((T + cs, A), (T, A)) ((T, 7 * cs), (N, 7 * cs)) ∧
     ¬sameEdge ((T + cs, A), (T, A)) ((N, B), (N + cs, B)) ∧
     ¬sameEdge ((T + cs, A), (T, A)) ((N + cs, 0), (T + cs, 0)) ∧
     ¬sameEdge ((T, 7 * cs), (N, 7 * cs)) ((N, B), (N + cs, B)) ∧
     ¬sameEdge ((T, 7 * cs), (N, 7 * cs)) ((N + cs, 0), (T + cs, 0)) ∧
     ¬sameEdge ((N, B), (N + cs, B)) ((N + cs, 0), (T + cs, 0))) ∧
    (¬sameEdge ((T, A), (T, 7 * cs)) ((N, 7 * cs), (N, B)) ∧
     ¬sameEdge ((T, A), (T, 7 * cs)) ((N + cs, B), (N + cs, 0)) ∧
     ¬sameEdge ((T, A), (T, 7 * cs)) ((T + cs, 0), (T + cs, A)) ∧
     ¬sameEdge ((N, 7 * cs), (N, B)) ((N + cs, B), (N + cs, 0)) ∧
     ¬sameEdge ((N, 7 * cs), (N, B)) ((T + cs, 0), (T + cs, A)) ∧
     ¬sameEdge ((N + cs, B), (N + cs, 0)) ((T + cs, 0), (T + cs, A))) ∧
    SimpleLoop (([((T + cs, A), (T, A)), ((T, A), (T, 7 * cs)),
      ((T, 7 * cs), (N, 7 * cs)), ((N, 7 * cs), (N, B)), ((N, B), (N + cs, B)),
      ((N + cs, B), (N + cs, 0)), ((N + cs, 0), (T + cs, 0)),
      ((T + cs, 0), (T + cs, A))] : List Seg).filter nonDegen) := by
  refine ⟨⟨?_, ?_, ?_, ?_, ?_, ?_⟩, ⟨?_, ?_, ?_, ?_, ?_, ?_⟩, ?_⟩
  all_goals try (simp only [sameEdge, Prod.mk.injEq]; omega)
  have d0 : ¬ degen (((T + cs, A), (T, A)) : Seg) := by
    simp only [degen, Prod.mk.injEq]
    rintro ⟨h1, h2⟩
    omega
  have d1 : ¬ degen (((T, A), (T, 7 * cs)) : Seg) := by
    simp only [degen, Prod.mk.injEq]
    rintro ⟨h1, h2⟩
    omega
  have d2 : ¬ degen (((T, 7 * cs), (N, 7 * cs)) : Seg) := by
    simp only [degen, Prod.mk.injEq]
    rintro ⟨h1, h2⟩
    omega
  have d4 : ¬ degen (((N, B), (N + cs, B)) : Seg) := by
    simp only [degen, Prod.mk.injEq]
    rintro ⟨h1, h2⟩
    omega
  have d5 : ¬ degen (((N + cs, B), (N + cs, 0)) : Seg) := by
    simp only [degen, Prod.mk.injEq]
    rintro ⟨h1, h2⟩
    omega
  have d6 : ¬ degen (((N + cs, 0), (T + cs, 0)) : Seg) := by
    simp only [degen, Prod.mk.injEq]
    rintro ⟨h1, h2⟩
    omega
  by_cases hA : A = 0 <;> by_cases hB : B = 7 * cs
  · -- A = 0, B = 7cs: both the closing edge and edge 3 degenerate
    subst hA
    subst hB
    have hfil : ([((T + cs, 0), (T, 0)), ((T, 0), (T, 7 * cs)),
        ((T, 7 * cs), (N, 7 * cs)), ((N, 7 * cs), (N, 7 * cs)),
        ((N, 7 * cs), (N + cs, 7 * cs)), ((N + cs, 7 * cs), (N + cs, 0)),
        ((N + cs, 0), (T + cs, 0)), ((T + cs, 0), (T + cs, 0))] : List Seg).filter
          nonDegen =
        [((T + cs, 0), (T, 0)), ((T, 0), (T, 7 * cs)), ((T, 7 * cs), (N, 7 * cs)),
         ((N, 7 * cs), (N + cs, 7 * cs)), ((N + cs, 7 * cs), (N + cs, 0)),
         ((N + cs, 0), (T + cs, 0))] := by
      rw [List.filter_cons_of_pos (show nonDegen _ = true from decide_eq_true d0),
        List.filter_cons_of_pos (show nonDegen _ = true from decide_eq_true d1),
        List.filter_cons_of_pos (show nonDegen _ = true from decide_eq_true d2),
        List.filter_cons_of_neg (show ¬nonDegen _ = true by
          simp only [nonDegen, decide_eq_true_eq]; exact not_not_intro rfl),
        List.filter_cons_of_pos (show nonDegen _ = true from decide_eq_true d4),
        List.filter_cons_of_pos (show nonDegen _ = true from decide_eq_true d5),
        List.filter_cons_of_pos (show nonDegen _ = true from decide_eq_true d6),
        List.filter_cons_of_neg (show ¬nonDegen _ = true by
          simp only [nonDegen, decide_eq_true_eq]; exact not_not_intro rfl),
        List.filter_nil]
    rw [hfil]
    intro i j hi hj hij
    simp only [List.length_cons, List.length_nil] at hi hj
    interval_cases i <;> interval_cases j <;>
        simp only [List.length_cons, List.length_nil, List.get] <;>
        refine ⟨fun hadj => ?_, fun hnadj => ?_⟩ <;>
      first
        | exact absurd hadj (by decide)
        | exact absurd (by decide) hnadj
        | (apply meet_consecutive
           rintro ⟨zx, zy⟩ h1 h2
           simp only [onSeg] at h1 h2
           rw [Prod.mk.injEq]
           refine ⟨by omega, by omega⟩)
        | (apply meet_wrap
           rintro ⟨zx, zy⟩ h1 h2
           simp only [onSeg] at h1 h2
           rw [Prod.mk.injEq]
           refine ⟨by omega, by omega⟩)
        | (rintro ⟨zx, zy⟩ ⟨h1, h2⟩
           simp only [onSeg] at h1 h2
           omega)
  · -- A = 0, B < 7cs: only the closing edge degenerates
    subst hA
    have d3 : ¬ degen (((N, 7 * cs), (N, B)) : Seg) := by
      simp only [degen, Prod.mk.injEq]
      rintro ⟨h1, h2⟩
      omega
    have hfil : ([((T + cs, 0), (T, 0)), ((T, 0), (T, 7 * cs)),
        ((T, 7 * cs), (N, 7 * cs)), ((N, 7 * cs), (N, B)), ((N, B), (N + cs, B)),
        ((N + cs, B), (N + cs, 0)), ((N + cs, 0), (T + cs, 0)),
        ((T + cs, 0), (T + cs, 0))] : List Seg).filter nonDegen =
        [((T + cs, 0), (T, 0)), ((T, 0), (T, 7 * cs)), ((T, 7 * cs), (N, 7 * cs)),
         ((N, 7 * cs), (N, B)), ((N, B), (N + cs, B)), ((N + cs, B), (N + cs, 0)),
         ((N + cs, 0), (T + cs, 0))] := by
      rw [List.filter_cons_of_pos (show nonDegen _ = true from decide_eq_true d0),
        List.filter_cons_of_pos (show nonDegen _ = true from decide_eq_true d1),
        List.filter_cons_of_pos (show nonDegen _ = true from decide_eq_true d2),
        List.filter_cons_of_pos (show nonDegen _ = true from decide_eq_true d3),
        List.filter_cons_of_pos (show nonDegen _ = true from decide_eq_true d4),
        List.filter_cons_of_pos (show nonDegen _ = true from decide_eq_true d5),
        List.filter_cons_of_pos (show nonDegen _ = true from decide_eq_true d6),
        List.filter_cons_of_neg (show ¬nonDegen _ = true by
          simp only [nonDegen, decide_eq_true_eq]; exact not_not_intro rfl),
        List.filter_nil]
    rw [hfil]
    intro i j hi hj hij
    simp only [List.length_cons, List.length_nil] at hi hj
    interval_cases i <;> interval_cases j <;>
        simp only [List.length_cons, List.length_nil, List.get] <;>
        refine ⟨fun hadj => ?_, fun hnadj => ?_⟩ <;>
      first
        | exact absurd hadj (by decide)
        | exact absurd (by decide) hnadj
        | (apply meet_consecutive
           rintro ⟨zx, zy⟩ h1 h2
           simp only [onSeg] at h1 h2
           rw [Prod.mk.injEq]
           refine ⟨by omega, by omega⟩)
        | (apply meet_wrap
           rintro ⟨zx, zy⟩ h1 h2
           simp only [onSeg] at h1 h2
           rw [Prod.mk.injEq]
           refine ⟨by omega, by omega⟩)
        | (rintro ⟨zx, zy⟩ ⟨h1, h2⟩
           simp only [onSeg] at h1 h2
           omega)
  · -- A > 0, B = 7cs: only edge 3 degenerates
    subst hB
    have d7 : ¬ degen (((T + cs, 0), (T + cs, A)) : Seg) := by
      simp only [degen, Prod.mk.injEq]
      rintro ⟨h1, h2⟩
      omega
    have hfil : ([((T + cs, A), (T, A)), ((T, A), (T, 7 * cs)),
        ((T, 7 * cs), (N, 7 * cs)), ((N, 7 * cs), (N, 7 * cs)),
        ((N, 7 * cs), (N + cs, 7 * cs)), ((N + cs, 7 * cs), (N + cs, 0)),
        ((N + cs, 0), (T + cs, 0)), ((T + cs, 0), (T + cs, A))] : List Seg).filter
          nonDegen =
        [((T + cs, A), (T, A)), ((T, A), (T, 7 * cs)), ((T, 7 * cs), (N, 7 * cs)),
         ((N, 7 * cs), (N + cs, 7 * cs)), ((N + cs, 7 * cs), (N + cs, 0)),
         ((N + cs, 0), (T + cs, 0)), ((T + cs, 0), (T + cs, A))] := by
      rw [List.filter_cons_of_pos (show nonDegen _ = true from decide_eq_true d0),
        List.filter_cons_of_pos (show nonDegen _ = true from decide_eq_true d1),
        List.filter_cons_of_pos (show nonDegen _ = true from decide_eq_true d2),
        List.filter_cons_of_neg (show ¬nonDegen _ = true by
          simp only [nonDegen, decide_eq_true_eq]; exact not_not_intro rfl),
        List.filter_cons_of_pos (show nonDegen _ = true from decide_eq_true d4),
        List.filter_cons_of_pos (show nonDegen _ = true from decide_eq_true d5),
        List.filter_cons_of_pos (show nonDegen _ = true from decide_eq_true d6),
        List.filter_cons_of_pos (show nonDegen _ = true from decide_eq_true d7),
        List.filter_nil]
    rw [hfil]
    intro i j hi hj hij
    simp only [List.length_cons, List.length_nil] at hi hj
    interval_cases i <;> interval_cases j <;>
        simp only [List.length_cons, List.length_nil, List.get] <;>
        refine ⟨fun hadj => ?_, fun hnadj => ?_⟩ <;>
      first
        | exact absurd hadj (by decide)
        | exact absurd (by decide) hnadj
        | (apply meet_consecutive
           rintro ⟨zx, zy⟩ h1 h2
           simp only [onSeg] at h1 h2
           rw [Prod.mk.injEq]
           refine ⟨by omega, by omega⟩)
        | (apply meet_wrap
           rintro ⟨zx, zy⟩ h1 h2
           simp only [onSeg] at h1 h2
           rw [Prod.mk.injEq]
           refine ⟨by omega, by omega⟩)
        | (rintro ⟨zx, zy⟩ ⟨h1, h2⟩
           simp only [onSeg] at h1 h2
           omega)
  · -- A > 0, B < 7cs: all eight edges are real
    have d3 : ¬ degen (((N, 7 * cs), (N, B)) : Seg) := by
      simp only [degen, Prod.mk.injEq]
      rintro ⟨h1, h2⟩
      omega
    have d7 : ¬ degen (((T + cs, 0), (T + cs, A)) : Seg) := by
      simp only [degen, Prod.mk.injEq]
      rintro ⟨h1, h2⟩
      omega
    have hfil : ([((T + cs, A), (T, A)), ((T, A), (T, 7 * cs)),
        ((T, 7 * cs), (N, 7 * cs)), ((N, 7 * cs), (N, B)), ((N, B), (N + cs, B)),
        ((N + cs, B), (N + cs, 0)), ((N + cs, 0), (T + cs, 0)),
        ((T + cs, 0), (T + cs, A))] : List Seg).filter nonDegen =
        [((T + cs, A), (T, A)), ((T, A), (T, 7 * cs)), ((T, 7 * cs), (N, 7 * cs)),
         ((N, 7 * cs), (N, B)), ((N, B), (N + cs, B)), ((N + cs, B), (N + cs, 0)),
         ((N + cs, 0), (T + cs, 0)), ((T + cs, 0), (T + cs, A))] := by
      rw [List.filter_cons_of_pos (show nonDegen _ = true from decide_eq_true d0),
        List.filter_cons_of_pos (show nonDegen _ = true from decide_eq_true d1),
        List.filter_cons_of_pos (show nonDegen _ = true from decide_eq_true d2),
        List.filter_cons_of_pos (show nonDegen _ = true from decide_eq_true d3),
        List.filter_cons_of_pos (show nonDegen _ = true from decide_eq_true d4),
        List.filter_cons_of_pos (show nonDegen _ = true from decide_eq_true d5),
        List.filter_cons_of_pos (show nonDegen _ = true from decide_eq_true d6),
        List.filter_cons_of_pos (show nonDegen _ = true from decide_eq_true d7),
        List.filter_nil]
    rw [hfil]
    intro i j hi hj hij
    simp only [List.length_cons, List.length_nil] at hi hj
    interval_cases i <;> interval_cases j <;>
        simp only [List.length_cons, List.length_nil, List.get] <;>
        refine ⟨fun hadj => ?_, fun hnadj => ?_⟩ <;>
      first
        | exact absurd hadj (by decide)
        | exact absurd (by decide) hnadj
        | (apply meet_consecutive
           rintro ⟨zx, zy⟩ h1 h2
           simp only [onSeg] at h1 h2
           rw [Prod.mk.injEq]
           refine ⟨by omega, by omega⟩)
        | (apply meet_wrap
           rintro ⟨zx, zy⟩ h1 h2
           simp only [onSeg] at h1 h2
           rw [Prod.mk.injEq]
           refine ⟨by omega, by omega⟩)
        | (rintro ⟨zx, zy⟩ ⟨h1, h2⟩
           simp only [onSeg] at h1 h2
           omega)
/-- **C6**: for every month and positive cell size, the outline is a closed
loop (the closing edge returns to the first vertex), every edge is horizontal
or vertical and they alternate (closing edge included), the four horizontal
edges are pairwise distinct, the four vertical edges are pairwise distinct,
and — after collapsing zero-length edges — the loop is a single
non-self-intersecting closed curve. -/
theorem c6_outline_invariants (y m cs : ℕ) (hy : 1 ≤ y) (hm1 : 1 ≤ m)
    (hm2 : m ≤ 12) (hcs : 0 < cs) :
    ∃ e0 e1 e2 e3 e4 e5 e6 e7 : Seg,
      outlineEdges (getPathDescriptionForMonth cs y m) =
        [e0, e1, e2, e3, e4, e5, e6, e7] ∧
      e7.2 = e0.1 ∧
      (horiz e0 ∧ horiz e2 ∧ horiz e4 ∧ horiz e6) ∧
      (vert e1 ∧ vert e3 ∧ vert e5 ∧ vert e7) ∧
      (¬sameEdge e0 e2 ∧ ¬sameEdge e0 e4 ∧ ¬sameEdge e0 e6 ∧
        ¬sameEdge e2 e4 ∧ ¬sameEdge e2 e6 ∧ ¬sameEdge e4 e6) ∧
      (¬sameEdge e1 e3 ∧ ¬sameEdge e1 e5 ∧ ¬sameEdge e1 e7 ∧
        ¬sameEdge e3 e5 ∧ ¬sameEdge e3 e7 ∧ ¬sameEdge e5 e7) ∧
      SimpleLoop ([e0, e1, e2, e3, e4, e5, e6, e7].filter nonDegen) := by
  have hcsZ : (0 : ℤ) < (cs : ℤ) := by exact_mod_cast hcs
  have htd : getDayNumber ⟨y, m, 1⟩ ≤ 6 := by
    have := dow_lt_7 (rata ⟨y, m, 1⟩)
    unfold getDayNumber
    omega
  have hnd : getDayNumber (lastDayOfMonth y m) ≤ 6 := by
    have := dow_lt_7 (rata (lastDayOfMonth y m))
    unfold getDayNumber
    omega
  have htdZ : ((getDayNumber ⟨y, m, 1⟩ : ℤ)) ≤ 6 := by exact_mod_cast htd
  have hndZ : ((getDayNumber (lastDayOfMonth y m) : ℤ)) ≤ 6 := by exact_mod_cast hnd
  have hspan := month_week_span y m hm1 hm2
  have hTN : getWeekNumber ⟨y, m, 1⟩ * (cs : ℤ) + 3 * cs ≤
      getWeekNumber (lastDayOfMonth y m) * cs := by
    have h1 := mul_le_mul_of_nonneg_right hspan hcsZ.le
    calc getWeekNumber ⟨y, m, 1⟩ * (cs : ℤ) + 3 * cs
        = (getWeekNumber ⟨y, m, 1⟩ + 3) * cs := by ring
      _ ≤ getWeekNumber (lastDayOfMonth y m) * cs := h1
  have hA0 : (0 : ℤ) ≤ (getDayNumber ⟨y, m, 1⟩ : ℤ) * cs := by positivity
  have hA6 : (getDayNumber ⟨y, m, 1⟩ : ℤ) * cs ≤ 6 * cs :=
    mul_le_mul_of_nonneg_right htdZ hcsZ.le
  have hB1 : (cs : ℤ) ≤ ((getDayNumber (lastDayOfMonth y m) : ℤ) + 1) * cs := by
    have h1 : (1 : ℤ) ≤ (getDayNumber (lastDayOfMonth y m) : ℤ) + 1 := by omega
    calc (cs : ℤ) = 1 * cs := (one_mul _).symm
      _ ≤ ((getDayNumber (lastDayOfMonth y m) : ℤ) + 1) * cs :=
        mul_le_mul_of_nonneg_right h1 hcsZ.le
  have hB7 : ((getDayNumber (lastDayOfMonth y m) : ℤ) + 1) * cs ≤ 7 * cs :=
    mul_le_mul_of_nonneg_right (by omega) hcsZ.le
  have habs := outline_abs (cs : ℤ) (getWeekNumber ⟨y, m, 1⟩ * cs)
    (getWeekNumber (lastDayOfMonth y m) * cs)
    ((getDayNumber ⟨y, m, 1⟩ : ℤ) * cs)
    (((getDayNumber (lastDayOfMonth y m) : ℤ) + 1) * cs)
    hcsZ hA0 hA6 hB1 hB7 hTN
  obtain ⟨hdh, hdv, hsl⟩ := habs
  have g1 : (getWeekNumber ⟨y, m, 1⟩ + 1) * (cs : ℤ) =
      getWeekNumber ⟨y, m, 1⟩ * cs + cs := by ring
  have g2 : (getWeekNumber (lastDayOfMonth y m) + 1) * (cs : ℤ) =
      getWeekNumber (lastDayOfMonth y m) * cs + cs := by ring
  have hE : outlineEdges (getPathDescriptionForMonth cs y m) =
      [(((getWeekNumber ⟨y, m, 1⟩ + 1) * (cs : ℤ), (getDayNumber ⟨y, m, 1⟩ : ℤ) * cs),
        (getWeekNumber ⟨y, m, 1⟩ * cs, (getDayNumber ⟨y, m, 1⟩ : ℤ) * cs)),
       ((getWeekNumber ⟨y, m, 1⟩ * (cs : ℤ), (getDayNumber ⟨y, m, 1⟩ : ℤ) * cs),
        (getWeekNumber ⟨y, m, 1⟩ * cs, 7 * cs)),
       ((getWeekNumber ⟨y, m, 1⟩ * (cs : ℤ), 7 * cs),
        (getWeekNumber (lastDayOfMonth y m) * cs, 7 * cs)),
       ((getWeekNumber (lastDayOfMonth y m) * (cs : ℤ), 7 * cs),
        (getWeekNumber (lastDayOfMonth y m) * cs,
          ((getDayNumber (lastDayOfMonth y m) : ℤ) + 1) * cs)),
       ((getWeekNumber (lastDayOfMonth y m) * (cs : ℤ),
          ((getDayNumber (lastDayOfMonth y m) : ℤ) + 1) * cs),
        ((getWeekNumber (lastDayOfMonth y m) + 1) * cs,
          ((getDayNumber (lastDayOfMonth y m) : ℤ) + 1) * cs)),
       (((getWeekNumber (lastDayOfMonth y m) + 1) * (cs : ℤ),
          ((getDayNumber (lastDayOfMonth y m) : ℤ) + 1) * cs),
        ((getWeekNumber (lastDayOfMonth y m) + 1) * cs, 0)),
       (((getWeekNumber (lastDayOfMonth y m) + 1) * (cs : ℤ), 0),
        ((getWeekNumber ⟨y, m, 1⟩ + 1) * cs, 0)),
       (((getWeekNumber ⟨y, m, 1⟩ + 1) * (cs : ℤ), 0),
        ((getWeekNumber ⟨y, m, 1⟩ + 1) * cs,
          (getDayNumber ⟨y, m, 1⟩ : ℤ) * cs))] := rfl
  rw [g1, g2] at hE
  exact ⟨_, _, _, _, _, _, _, _, hE, rfl, ⟨rfl, rfl, rfl, rfl⟩, ⟨rfl, rfl, rfl, rfl⟩,
    hdh, hdv, hsl⟩

/-- Witness for `c6_outline_invariants` at January 2016 with cell size 17. -/
theorem c6_outline_invariants_witness :
    (1 ≤ 2016 ∧ 1 ≤ 1 ∧ 1 ≤ 12 ∧ 0 < 17) ∧
    (∃ e0 e1 e2 e3 e4 e5 e6 e7 : Seg,
      outlineEdges (getPathDescriptionForMonth 17 2016 1) =
        [e0, e1, e2, e3, e4, e5, e6, e7] ∧
      e7.2 = e0.1 ∧
      (horiz e0 ∧ horiz e2 ∧ horiz e4 ∧ horiz e6) ∧
      (vert e1 ∧ vert e3 ∧ vert e5 ∧ vert e7) ∧
      (¬sameEdge e0 e2 ∧ ¬sameEdge e0 e4 ∧ ¬sameEdge e0 e6 ∧
        ¬sameEdge e2 e4 ∧ ¬sameEdge e2 e6 ∧ ¬sameEdge e4 e6) ∧
      (¬sameEdge e1 e3 ∧ ¬sameEdge e1 e5 ∧ ¬sameEdge e1 e7 ∧
        ¬sameEdge e3 e5 ∧ ¬sameEdge e3 e7 ∧ ¬sameEdge e5 e7) ∧
      SimpleLoop ([e0, e1, e2, e3, e4, e5, e6, e7].filter nonDegen)) :=
  ⟨⟨by omega, by omega, by omega, by omega⟩,
    c6_outline_invariants 2016 1 17 (by omega) (by omega) (by omega) (by omega)⟩

end Calendar
